import Mathlib

set_option maxRecDepth 100000

/-!
Shallow embedding of the vault synchronization subsystem of the
sidebar-markdown-notes editor extension (the provider class in the main
source file: `init` / `saveState` message handlers, `_getWorkspaceHash`,
`_getVaultDir`, `_startWatching` and its watcher callback, and the
deferred debugging action scheduled inside `_getWorkspaceHash`).

Modelling conventions:
* JSON documents are the inductive `Json` below; numbers are restricted to
  integers (no claim depends on fractional or exponent numerals).
* `JSON.stringify(v, null, 2)` is `stringify`; `JSON.parse` is the
  fuel-based `JSON.parse` below, returning `none` where the platform
  parser throws.
* A JavaScript string field that can be assigned `undefined` at runtime
  (the provider's `_lastSavedStateStr` after stringifying an `undefined`
  legacy value) is an `Option String`, with `none` for `undefined`.
* The filesystem is an explicit state (`Fs`); side effects of a handler
  are recorded in an explicit `Effect` trace whose vocabulary covers the
  platform operations the code can call (`writeFileSync`, `mkdirSync`,
  `renameSync` — unused by the code, present so that its absence is
  expressible —, `watch`, handle close, `postMessage`, error messages).
* The `setTimeout` body inside `_getWorkspaceHash` is reified as a
  `DebugAction` value; running it later is `runDebugAction`.
* Strings are treated as sequences of Unicode scalars; all concrete
  inputs used in witnesses are ASCII, where the byte-level view used by
  the md5 digest agrees with UTF-8.
-/

inductive Json where
  | null : Json
  | bool (b : Bool) : Json
  | num (n : Int) : Json
  | str (s : String) : Json
  | arr (elems : List Json) : Json
  | obj (fields : List (String × Json)) : Json

/-- Decimal digits of a natural number (most significant first); fuel-based
so that it reduces by `rfl` in the kernel. -/
def natDigits (fuel n : Nat) : List Char :=
  match fuel with
  | 0 => []
  | fuel + 1 =>
    if n < 10 then [Char.ofNat (48 + n)]
    else natDigits fuel (n / 10) ++ [Char.ofNat (48 + n % 10)]

/-- Rendering of a JSON integer the way JavaScript prints integral numbers. -/
def jsonIntRepr (n : Int) : String :=
  if n < 0 then String.mk ('-' :: natDigits (n.natAbs + 1) n.natAbs)
  else String.mk (natDigits (n.natAbs + 1) n.natAbs)

def hexDigit (n : Nat) : Char :=
  if n < 10 then Char.ofNat (48 + n) else Char.ofNat (87 + n)

/-- Escape of one character inside a JSON string literal, as produced by
`JSON.stringify`. -/
def escapeChar (c : Char) : List Char :=
  if c = '"' then ['\\', '"']
  else if c = '\\' then ['\\', '\\']
  else if c = Char.ofNat 8 then ['\\', 'b']
  else if c = Char.ofNat 9 then ['\\', 't']
  else if c = Char.ofNat 10 then ['\\', 'n']
  else if c = Char.ofNat 12 then ['\\', 'f']
  else if c = Char.ofNat 13 then ['\\', 'r']
  else if c.toNat < 32 then
    ['\\', 'u', '0', '0', hexDigit (c.toNat / 16), hexDigit (c.toNat % 16)]
  else [c]

/-- Quoted, escaped JSON string literal. -/
def quoteJson (s : String) : String :=
  String.mk ('"' :: (s.data.flatMap escapeChar ++ ['"']))

def nSpaces (n : Nat) : String :=
  String.mk (List.replicate n ' ')

mutual

/-- Model of `JSON.stringify(v, null, 2)` at nesting depth `d`. -/
def stringifyAt (d : Nat) : Json → String
  | Json.null => "null"
  | Json.bool true => "true"
  | Json.bool false => "false"
  | Json.num n => jsonIntRepr n
  | Json.str s => quoteJson s
  | Json.arr [] => "[]"
  | Json.arr (x :: xs) =>
      "[\n" ++ stringifyArrItems d (x :: xs) ++ "\n" ++ nSpaces (2 * d) ++ "]"
  | Json.obj [] => "\x7b\x7d"
  | Json.obj (f :: fs) =>
      "\x7b\n" ++ stringifyObjItems d (f :: fs) ++ "\n" ++ nSpaces (2 * d) ++ "\x7d"

def stringifyArrItems (d : Nat) : List Json → String
  | [] => ""
  | [x] => nSpaces (2 * (d + 1)) ++ stringifyAt (d + 1) x
  | x :: y :: xs =>
      nSpaces (2 * (d + 1)) ++ stringifyAt (d + 1) x ++ ",\n" ++
        stringifyArrItems d (y :: xs)

def stringifyObjItems (d : Nat) : List (String × Json) → String
  | [] => ""
  | [(k, v)] => nSpaces (2 * (d + 1)) ++ quoteJson k ++ ": " ++ stringifyAt (d + 1) v
  | (k, v) :: f :: fs =>
      nSpaces (2 * (d + 1)) ++ quoteJson k ++ ": " ++ stringifyAt (d + 1) v ++ ",\n" ++
        stringifyObjItems d (f :: fs)

end

/-- Model of `JSON.stringify(v, null, 2)` at the top level. -/
def stringify (v : Json) : String := stringifyAt 0 v

/-- Model of `JSON.stringify(x, null, 2)` on a possibly-`undefined` value:
stringifying `undefined` yields `undefined`, not a string. -/
def stringifyJS : Option Json → Option String
  | none => none
  | some v => some (stringify v)

def isJsonWs (c : Char) : Bool :=
  c = ' ' || c = '\n' || c = '\t' || c = '\r'

def skipWs (s : List Char) : List Char :=
  s.dropWhile isJsonWs

def hexVal (c : Char) : Option Nat :=
  if 48 ≤ c.toNat ∧ c.toNat ≤ 57 then some (c.toNat - 48)
  else if 97 ≤ c.toNat ∧ c.toNat ≤ 102 then some (c.toNat - 87)
  else if 65 ≤ c.toNat ∧ c.toNat ≤ 70 then some (c.toNat - 55)
  else none

/-- Body of a JSON string literal after the opening quote: the decoded
characters and the rest of the input after the closing quote. -/
def parseStrChars : List Char → Option (List Char × List Char)
  | [] => none
  | c :: rest =>
    if c = '"' then some ([], rest)
    else if c = '\\' then
      match rest with
      | [] => none
      | e :: rest2 =>
        if e = 'u' then
          match rest2 with
          | h1 :: h2 :: h3 :: h4 :: rest3 => do
            let v1 ← hexVal h1
            let v2 ← hexVal h2
            let v3 ← hexVal h3
            let v4 ← hexVal h4
            let (cs, r) ← parseStrChars rest3
            pure (Char.ofNat (((v1 * 16 + v2) * 16 + v3) * 16 + v4) :: cs, r)
          | _ => none
        else do
          let d ←
            if e = '"' then some '"'
            else if e = '\\' then some '\\'
            else if e = '/' then some '/'
            else if e = 'b' then some (Char.ofNat 8)
            else if e = 'f' then some (Char.ofNat 12)
            else if e = 'n' then some (Char.ofNat 10)
            else if e = 'r' then some (Char.ofNat 13)
            else if e = 't' then some (Char.ofNat 9)
            else none
          let (cs, r) ← parseStrChars rest2
          pure (d :: cs, r)
    else if c.toNat < 32 then none
    else do
      let (cs, r) ← parseStrChars rest
      pure (c :: cs, r)

def isDigitChar (c : Char) : Bool :=
  48 ≤ c.toNat && c.toNat ≤ 57

def digitsToNat (l : List Char) : Nat :=
  l.foldl (fun acc c => acc * 10 + (c.toNat - 48)) 0

/-- Integer numeral at the head of the input (JSON grammar restricted to
integers: optional minus, digits, no redundant leading zero). -/
def parseNum (s : List Char) : Option (Int × List Char) :=
  let (neg, s1) := match s with
    | '-' :: rest => (true, rest)
    | _ => (false, s)
  let ds := s1.takeWhile isDigitChar
  let rest := s1.dropWhile isDigitChar
  if ds = [] then none
  else if ds.length > 1 ∧ ds.headD '0' = '0' then none
  else
    let n : Int := Int.ofNat (digitsToNat ds)
    some (if neg then -n else n, rest)

mutual

/-- JSON value at the head of the input; `fuel` bounds the number of
nested values and is instantiated with the input length plus one. -/
def parseVal (fuel : Nat) (s : List Char) : Option (Json × List Char) :=
  match fuel with
  | 0 => none
  | fuel + 1 =>
    match skipWs s with
    | 'n' :: 'u' :: 'l' :: 'l' :: rest => some (Json.null, rest)
    | 't' :: 'r' :: 'u' :: 'e' :: rest => some (Json.bool true, rest)
    | 'f' :: 'a' :: 'l' :: 's' :: 'e' :: rest => some (Json.bool false, rest)
    | '"' :: rest => do
        let (cs, r) ← parseStrChars rest
        pure (Json.str (String.mk cs), r)
    | '[' :: rest =>
        (match skipWs rest with
         | ']' :: r2 => some (Json.arr [], r2)
         | _ => do
             let (xs, r2) ← parseArrItems fuel (skipWs rest)
             pure (Json.arr xs, r2))
    | '\x7b' :: rest =>
        (match skipWs rest with
         | '\x7d' :: r2 => some (Json.obj [], r2)
         | _ => do
             let (fs, r2) ← parseObjItems fuel (skipWs rest)
             pure (Json.obj fs, r2))
    | other => do
        let (n, r) ← parseNum other
        pure (Json.num n, r)

/-- Comma-separated JSON values up to the closing bracket. -/
def parseArrItems (fuel : Nat) (s : List Char) : Option (List Json × List Char) :=
  match fuel with
  | 0 => none
  | fuel + 1 => do
    let (v, r) ← parseVal fuel s
    match skipWs r with
    | ',' :: r2 => do
        let (xs, r3) ← parseArrItems fuel r2
        pure (v :: xs, r3)
    | ']' :: r2 => pure ([v], r2)
    | _ => none

/-- Comma-separated `"key": value` pairs up to the closing brace. -/
def parseObjItems (fuel : Nat) (s : List Char) : Option (List (String × Json) × List Char) :=
  match fuel with
  | 0 => none
  | fuel + 1 =>
    match skipWs s with
    | '"' :: rest => do
        let (kcs, r) ← parseStrChars rest
        match skipWs r with
        | ':' :: r2 => do
            let (v, r3) ← parseVal fuel r2
            match skipWs r3 with
            | ',' :: r4 => do
                let (fs, r5) ← parseObjItems fuel r4
                pure ((String.mk kcs, v) :: fs, r5)
            | '\x7d' :: r4 => pure ([(String.mk kcs, v)], r4)
            | _ => none
        | _ => none
    | _ => none

end

/-- Model of the platform `JSON.parse`: `none` where the real parser
throws (restricted to integer numerals, see the header comment). -/
def JSON.parse (s : String) : Option Json :=
  match parseVal (s.length + 1) s.data with
  | some (v, rest) => if skipWs rest = [] then some v else none
  | none => none

/-- Reduction of a machine word modulo `2 ^ 32`. -/
def m32 (n : Nat) : Nat := n % 4294967296

def mask32 : Nat := 4294967295

/-- Left rotation of a 32-bit word. -/
def rotl32 (x s : Nat) : Nat :=
  m32 ((x <<< s) ||| (x >>> (32 - s)))

/-- The 64 md5 round constants, `floor (2 ^ 32 * abs (sin (i + 1)))`. -/
def kTable : List Nat :=
  [3614090360, 3905402710, 606105819, 3250441966, 4118548399, 1200080426, 2821735955, 4249261313,
   1770035416, 2336552879, 4294925233, 2304563134, 1804603682, 4254626195, 2792965006, 1236535329,
   4129170786, 3225465664, 643717713, 3921069994, 3593408605, 38016083, 3634488961, 3889429448,
   568446438, 3275163606, 4107603335, 1163531501, 2850285829, 4243563512, 1735328473, 2368359562,
   4294588738, 2272392833, 1839030562, 4259657740, 2763975236, 1272893353, 4139469664, 3200236656,
   681279174, 3936430074, 3572445317, 76029189, 3654602809, 3873151461, 530742520, 3299628645,
   4096336452, 1126891415, 2878612391, 4237533241, 1700485571, 2399980690, 4293915773, 2240044497,
   1873313359, 4264355552, 2734768916, 1309151649, 4149444226, 3174756917, 718787259, 3951481745]

/-- The md5 per-round left-rotation amounts. -/
def sTable : List Nat :=
  [7, 12, 17, 22, 7, 12, 17, 22, 7, 12, 17, 22, 7, 12, 17, 22,
   5, 9, 14, 20, 5, 9, 14, 20, 5, 9, 14, 20, 5, 9, 14, 20,
   4, 11, 16, 23, 4, 11, 16, 23, 4, 11, 16, 23, 4, 11, 16, 23,
   6, 10, 15, 21, 6, 10, 15, 21, 6, 10, 15, 21, 6, 10, 15, 21]

/-- Little-endian byte decomposition of `n` into `k` bytes. -/
def toLEBytes : Nat → Nat → List Nat
  | 0, _ => []
  | k + 1, n => (n % 256) :: toLEBytes k (n / 256)

/-- Little-endian recomposition of a byte list into a word. -/
def fromLEBytes : List Nat → Nat
  | [] => 0
  | b :: bs => b + 256 * fromLEBytes bs

/-- md5 padding: a `0x80` byte, zeros to 56 mod 64, then the bit length
as eight little-endian bytes. -/
def md5Pad (msg : List Nat) : List Nat :=
  let len := msg.length
  let zeros := (119 - len % 64) % 64
  msg ++ [128] ++ List.replicate zeros 0 ++ toLEBytes 8 ((len * 8) % 18446744073709551616)

/-- Split a byte list into 64-byte blocks; fuel-based so that it reduces
by `rfl` (the fuel is instantiated with the list length plus one). -/
def chunk64Fuel : Nat → List Nat → List (List Nat)
  | 0, _ => []
  | _, [] => []
  | f + 1, b :: bs => ((b :: bs).take 64) :: chunk64Fuel f ((b :: bs).drop 64)

def chunk64 (l : List Nat) : List (List Nat) :=
  chunk64Fuel (l.length + 1) l

/-- The 16 message words of one md5 block, fuel-based like `chunk64Fuel`. -/
def blockWordsFuel : Nat → List Nat → List Nat
  | 0, _ => []
  | _, [] => []
  | f + 1, b :: bs => fromLEBytes ((b :: bs).take 4) :: blockWordsFuel f ((b :: bs).drop 4)

def blockWords (l : List Nat) : List Nat :=
  blockWordsFuel (l.length + 1) l

/-- One md5 round: round function, message index, constant, rotation. -/
def md5Round (M : List Nat) (st : Nat × Nat × Nat × Nat) (i : Nat) : Nat × Nat × Nat × Nat :=
  let a := st.1
  let b := st.2.1
  let c := st.2.2.1
  let d := st.2.2.2
  let fg : Nat × Nat :=
    if i < 16 then ((b &&& c) ||| ((b ^^^ mask32) &&& d), i)
    else if i < 32 then ((d &&& b) ||| ((d ^^^ mask32) &&& c), (5 * i + 1) % 16)
    else if i < 48 then (b ^^^ c ^^^ d, (3 * i + 5) % 16)
    else (c ^^^ (b ||| (d ^^^ mask32)), (7 * i) % 16)
  let f := m32 (fg.1 + a + kTable.getD i 0 + M.getD fg.2 0)
  (d, m32 (b + rotl32 f (sTable.getD i 0)), b, c)

/-- Digest update for one 64-byte block. -/
def md5Block (st : Nat × Nat × Nat × Nat) (block : List Nat) : Nat × Nat × Nat × Nat :=
  let M := blockWords block
  let r := (List.range 64).foldl (md5Round M) st
  (m32 (st.1 + r.1), m32 (st.2.1 + r.2.1), m32 (st.2.2.1 + r.2.2.1), m32 (st.2.2.2 + r.2.2.2))

/-- md5 digest of a byte sequence, as 16 bytes. -/
def md5Bytes (msg : List Nat) : List Nat :=
  let r := (chunk64 (md5Pad msg)).foldl md5Block
    (1732584193, 4023233417, 2562383102, 271733878)
  toLEBytes 4 r.1 ++ toLEBytes 4 r.2.1 ++ toLEBytes 4 r.2.2.1 ++ toLEBytes 4 r.2.2.2

/-- Lowercase hexadecimal rendering of a byte list. -/
def bytesToHex (bs : List Nat) : String :=
  String.mk (bs.flatMap (fun b => [hexDigit (b / 16), hexDigit (b % 16)]))

/-- Model of `crypto.createHash('md5').update(s).digest('hex')` for ASCII
input strings (where code points coincide with UTF-8 bytes). -/
def md5hex (s : String) : String :=
  bytesToHex (md5Bytes (s.data.map Char.toNat))

theorem md5_sanity_empty : md5hex "" = "d41d8cd98f00b204e9800998ecf8427e" := by
  decide

theorem md5_sanity_abc : md5hex "abc" = "900150983cd24fb0d6963f7d28e17f72" := by
  decide

theorem md5_sanity_global : md5hex "global" = "9c70933aff6b2a6d08c687a6cbb6b765" := by
  decide

theorem parse_sanity_arr : JSON.parse "[1, 2]" = some (Json.arr [Json.num 1, Json.num 2]) := by
  rfl

/-- Workspace folder location descriptor (the parts of a `vscode.Uri`
that the provider reads). -/
structure Uri where
  scheme : String
  authority : String
  path : String
deriving DecidableEq

/-- Model of `uri.toString()` for the descriptors above (percent-encoding
is not modelled; all concrete inputs are plain ASCII). -/
def Uri.toStr (u : Uri) : String :=
  u.scheme ++ "://" ++ u.authority ++ u.path

/-- The two configuration values of the extension. -/
structure Config where
  vaultPath : String
  leftMargin : Bool
deriving DecidableEq

/-- Ambient platform state read by the provider: home directory, open
workspace folders, current configuration. -/
structure Env where
  homedir : String
  workspaceFolders : List Uri
  config : Config
deriving DecidableEq

/-- Filesystem state: file contents by path, plus the set of existing
directories. -/
structure Fs where
  files : List (String × String)
  dirs : List String
deriving DecidableEq

def Fs.read (fs : Fs) (p : String) : Option String :=
  (fs.files.find? (fun kv => kv.1 == p)).map (fun kv => kv.2)

def Fs.write (fs : Fs) (p c : String) : Fs :=
  ⟨(p, c) :: fs.files.filter (fun kv => kv.1 != p), fs.dirs⟩

def Fs.mkdir (fs : Fs) (d : String) : Fs :=
  ⟨fs.files, d :: fs.dirs⟩

def Fs.hasDir (fs : Fs) (d : String) : Bool :=
  fs.dirs.contains d

/-- Registry of OS file-watch handles: the currently open handles and a
fresh-id counter. -/
structure WatchSys where
  openHandles : List Nat
  nextId : Nat
deriving DecidableEq

def WatchSys.close (w : WatchSys) (h : Nat) : WatchSys :=
  ⟨w.openHandles.filter (fun x => x != h), w.nextId⟩

def WatchSys.openNew (w : WatchSys) : Nat × WatchSys :=
  (w.nextId, ⟨w.openHandles ++ [w.nextId], w.nextId + 1⟩)

/-- Mutable fields of the provider relevant to the vault subsystem:
`_lastSavedStateStr` (the SerializedStateCache; `none` models the
JavaScript value `undefined`) and `_fileWatcher` (the active handle). -/
structure Session where
  lastSavedStateStr : Option String
  fileWatcher : Option Nat
deriving DecidableEq

/-- The provider's state at construction: `_lastSavedStateStr = ''`,
no watcher. -/
def initialSession : Session := ⟨some "", none⟩

/-- Messages posted to the presentation layer (the webview). -/
inductive Msg where
  | loadState (v : Json) : Msg
  | webviewInit : Msg

/-- Observable platform effects of one handler run. `rename` is never
produced by this code; it is in the vocabulary so that its absence is a
statable property. -/
inductive Effect where
  | write (path content : String) : Effect
  | mkdir (path : String) : Effect
  | rename (fromPath toPath : String) : Effect
  | post (m : Msg) : Effect
  | showError (m : String) : Effect
  | watchClose (h : Nat) : Effect
  | watchOpen (dir : String) (h : Nat) : Effect

def Effect.isWrite : Effect → Bool
  | Effect.write _ _ => true
  | _ => false

def Effect.isRename : Effect → Bool
  | Effect.rename _ _ => true
  | _ => false

def Effect.isPost : Effect → Bool
  | Effect.post _ => true
  | _ => false

def Effect.isShowError : Effect → Bool
  | Effect.showError _ => true
  | _ => false

/-- Everything after the first `'+'` of the list, if any (the semantics of
`indexOf('+')` followed by `substring(plusIndex + 1)`). -/
def dropThroughPlus : List Char → Option (List Char)
  | [] => none
  | c :: cs => if c = '+' then some cs else dropThroughPlus cs

/-- Authority normalization inside `_getWorkspaceHash`: if the authority
contains a `'+'`, keep only the substring after the first one. -/
def normalizeAuthority (a : String) : String :=
  match dropThroughPlus a.data with
  | some rest => String.mk rest
  | none => a

/-- The deferred diagnostic action scheduled with `setTimeout(..., 2000)`
inside `_getWorkspaceHash`, reified as the values its closure captures. -/
structure DebugAction where
  uri : Uri
  normalizedAuthority : String
  uriString : String

/-- Model of `_getWorkspaceHash`: the returned md5 identity, together with
the debug action the call schedules (empty when no workspace is open). -/
def getWorkspaceHash (env : Env) : String × List DebugAction :=
  match env.workspaceFolders with
  | [] => (md5hex "global", [])
  | uri :: _ =>
    let na := normalizeAuthority uri.authority
    let us := na ++ uri.path
    (md5hex us, [⟨uri, na, us⟩])

/-- Model of `_getVaultDir`: configured vault path if non-empty (string
truthiness), else a fixed directory under the home directory. -/
def getVaultDir (env : Env) : String :=
  if env.config.vaultPath != "" then env.config.vaultPath
  else env.homedir ++ "/.sidebar-markdown-notes"

/-- Model of `path.join(dir, name)` for the well-formed inputs the
provider produces (no trailing separators, no normalization needed). -/
def pathJoin (a b : String) : String :=
  a ++ "/" ++ b

/-- The vault file path a handler computes from the current environment. -/
def vaultFilePathOf (env : Env) : String :=
  pathJoin (getVaultDir env) ("notes_" ++ (getWorkspaceHash env).1 ++ ".json")

/-- Model of `path.basename`: everything after the last separator. -/
def pathBasename (p : String) : String :=
  String.mk ((p.data.reverse.takeWhile (fun c => c != '/')).reverse)

/-- Model of `path.dirname`: everything before the last separator
(`"."` when there is none, `"/"` for a root-level path). -/
def pathDirname (p : String) : String :=
  match p.data.reverse.dropWhile (fun c => c != '/') with
  | [] => "."
  | [_] => "/"
  | _ :: more => String.mk more.reverse

/-- Model of `_startWatching`: close any prior handle, then try to open a
watch on the containing directory (`fs.watch` throws — swallowed — when
the directory does not exist). -/
def startWatching (fs : Fs) (w : WatchSys) (sess : Session) (vaultFilePath : String) :
    WatchSys × Session × List Effect :=
  let closed : WatchSys × Session × List Effect :=
    match sess.fileWatcher with
    | some h => (w.close h, { sess with fileWatcher := none }, [Effect.watchClose h])
    | none => (w, sess, [])
  let w1 := closed.1
  let sess1 := closed.2.1
  let fx := closed.2.2
  let dir := pathDirname vaultFilePath
  if fs.hasDir dir then
    let opened := w1.openNew
    (opened.2, { sess1 with fileWatcher := some opened.1 },
      fx ++ [Effect.watchOpen dir opened.1])
  else (w1, sess1, fx)

/-- The `fs.watch` callback installed by `_startWatching`, at the moment
an event with filename `fname` fires: filter on the exact vault file
name, re-read, and reconcile against `_lastSavedStateStr`. The existence
check and the read are collapsed into one lookup; a parse failure is the
caught exception of `JSON.parse`, which happens after the cache was
already reassigned. -/
def watcherCallback (sess : Session) (fs : Fs) (vaultFilePath fname : String) :
    Session × List Effect :=
  if fname = pathBasename vaultFilePath then
    match fs.read vaultFilePath with
    | some fileData =>
      if sess.lastSavedStateStr = some fileData then (sess, [])
      else
        let sess1 := { sess with lastSavedStateStr := some fileData }
        match JSON.parse fileData with
        | some state => (sess1, [Effect.post (Msg.loadState state)])
        | none => (sess1, [])
    | none => (sess, [])
  else (sess, [])

/-- Result of running one provider message handler: the new filesystem,
watch registry and session, the effect trace, the debug actions newly
scheduled by `_getWorkspaceHash`, and whether an uncaught exception
escaped the handler. -/
structure Out where
  fs : Fs
  watch : WatchSys
  sess : Session
  effects : List Effect
  deferred : List DebugAction
  threw : Bool

/-- Model of the `init` message handler. `legacy` is the message's
`data.value` (`none` models `undefined`). When the vault file is missing
and `legacy` is `undefined`, `JSON.stringify` yields `undefined`, which
is assigned to `_lastSavedStateStr` and then makes `fs.writeFileSync`
throw out of the handler, before the watcher is started. -/
def initHandler (env : Env) (fs : Fs) (w : WatchSys) (sess : Session) (legacy : Option Json) :
    Out :=
  let hashAct := getWorkspaceHash env
  let vaultDir := getVaultDir env
  let mk : Fs × List Effect :=
    if fs.hasDir vaultDir then (fs, [])
    else (fs.mkdir vaultDir, [Effect.mkdir vaultDir])
  let fs1 := mk.1
  let mkfx := mk.2
  let vaultFilePath := pathJoin vaultDir ("notes_" ++ hashAct.1 ++ ".json")
  match fs1.read vaultFilePath with
  | some fileData =>
    let sess1 := { sess with lastSavedStateStr := some fileData }
    let fx :=
      match JSON.parse fileData with
      | some state => [Effect.post (Msg.loadState state)]
      | none => [Effect.showError "sidebar-markdown-notes: Failed to parse notes vault file."]
    let watched := startWatching fs1 w sess1 vaultFilePath
    ⟨fs1, watched.1, watched.2.1, mkfx ++ fx ++ watched.2.2, hashAct.2, false⟩
  | none =>
    match legacy with
    | some state =>
      let str := stringify state
      let sess1 := { sess with lastSavedStateStr := some str }
      let fs2 := fs1.write vaultFilePath str
      let watched := startWatching fs2 w sess1 vaultFilePath
      ⟨fs2, watched.1, watched.2.1,
        mkfx ++ [Effect.write vaultFilePath str, Effect.post (Msg.loadState state)] ++ watched.2.2,
        hashAct.2, false⟩
    | none =>
      let sess1 := { sess with lastSavedStateStr := none }
      ⟨fs1, w, sess1, mkfx, hashAct.2, true⟩

/-- Model of the `saveState` message handler: recompute the path, update
`_lastSavedStateStr`, write the file in place. -/
def saveStateHandler (env : Env) (fs : Fs) (w : WatchSys) (sess : Session) (value : Json) :
    Out :=
  let hashAct := getWorkspaceHash env
  let vaultDir := getVaultDir env
  let mk : Fs × List Effect :=
    if fs.hasDir vaultDir then (fs, [])
    else (fs.mkdir vaultDir, [Effect.mkdir vaultDir])
  let fs1 := mk.1
  let mkfx := mk.2
  let vaultFilePath := pathJoin vaultDir ("notes_" ++ hashAct.1 ++ ".json")
  let str := stringify value
  let sess1 := { sess with lastSavedStateStr := some str }
  let fs2 := fs1.write vaultFilePath str
  ⟨fs2, w, sess1, mkfx ++ [Effect.write vaultFilePath str], hashAct.2, false⟩

def Json.getField : Json → String → Option Json
  | Json.obj fields, k => (fields.find? (fun kv => kv.1 == k)).map (fun kv => kv.2)
  | _, _ => none

def Json.setField : Json → String → Json → Json
  | Json.obj fields, k, v => Json.obj (fields.map (fun kv => if kv.1 == k then (kv.1, v) else kv))
  | j, _, _ => j

/-- The diagnostic markdown block the debug action appends, a fenced JSON
rendering of the captured location data. -/
def debugMsgOf (a : DebugAction) : String :=
  "\n\n```json\n" ++
    stringify (Json.obj
      [("toString", Json.str a.uri.toStr),
       ("scheme", Json.str a.uri.scheme),
       ("authority", Json.str a.uri.authority),
       ("path", Json.str a.uri.path),
       ("normalizedAuthority", Json.str a.normalizedAuthority),
       ("finalUriString", Json.str a.uriString)]) ++
    "\n```"

/-- Model of the `setTimeout` body scheduled inside `_getWorkspaceHash`,
run against the state at fire time. It proceeds only when
`_lastSavedStateStr` is truthy and parses to a document with a non-empty
`pages` array; the in-range update of the current page is modelled for
documents of the shape the webview produces (`pages` an array of strings,
`currentPage` an in-range index) — on other shapes the body is modelled
as a no-op, as its `try/catch` swallows every failure. -/
def runDebugAction (a : DebugAction) (env : Env) (fs : Fs) (sess : Session) :
    Fs × Session × List Effect :=
  match sess.lastSavedStateStr with
  | none => (fs, sess, [])
  | some cache =>
    if cache = "" then (fs, sess, [])
    else
      let vaultDir := getVaultDir env
      let workspaceHash := md5hex a.uriString
      let vaultFilePath := pathJoin vaultDir ("notes_" ++ workspaceHash ++ ".json")
      match JSON.parse cache with
      | none => (fs, sess, [])
      | some state =>
        match state.getField "pages" with
        | some (Json.arr pages) =>
          if pages.length > 0 then
            match state.getField "currentPage" with
            | some (Json.num (Int.ofNat cp)) =>
              match pages.get? cp with
              | some (Json.str pageText) =>
                let pages1 := pages.set cp (Json.str (pageText ++ debugMsgOf a))
                let state1 := state.setField "pages" (Json.arr pages1)
                let str1 := stringify state1
                let sess1 := { sess with lastSavedStateStr := some str1 }
                let fs1 := fs.write vaultFilePath str1
                (fs1, sess1, [Effect.write vaultFilePath str1, Effect.post (Msg.loadState state1)])
              | _ => (fs, sess, [])
            | _ => (fs, sess, [])
          else (fs, sess, [])
        | _ => (fs, sess, [])

/-- Combined mutable state of one Session Coordinator and its platform:
filesystem, watch registry, provider fields. -/
structure SysState where
  fs : Fs
  watch : WatchSys
  sess : Session

def outState (o : Out) : SysState :=
  ⟨o.fs, o.watch, o.sess⟩

/-- One event-loop turn of the session: an `init` or `saveState` message
(under the then-current environment, which a configuration change may
have replaced), a watcher event, or a firing of a scheduled debug
action. -/
inductive Step : SysState → SysState → Prop
  | init (s : SysState) (env : Env) (legacy : Option Json) :
      Step s (outState (initHandler env s.fs s.watch s.sess legacy))
  | save (s : SysState) (env : Env) (v : Json) :
      Step s (outState (saveStateHandler env s.fs s.watch s.sess v))
  | watchEvt (s : SysState) (vaultFilePath fname : String) :
      Step s ⟨s.fs, s.watch, (watcherCallback s.sess s.fs vaultFilePath fname).1⟩
  | debugFire (s : SysState) (a : DebugAction) (env : Env) :
      Step s ⟨(runDebugAction a env s.fs s.sess).1, s.watch,
        (runDebugAction a env s.fs s.sess).2.1⟩

/-- The session's starting state over a filesystem `fs`: fresh provider,
no open watch handles. -/
def initialState (fs : Fs) : SysState :=
  ⟨fs, ⟨[], 0⟩, initialSession⟩

/-- Watcher bookkeeping invariant: the open OS handles are exactly the
provider's `_fileWatcher`, and every open handle is below the fresh-id
counter. -/
def WatcherInv (s : SysState) : Prop :=
  s.watch.openHandles = s.sess.fileWatcher.toList ∧
    ∀ h ∈ s.watch.openHandles, h < s.watch.nextId

theorem parse_sanity_bad : JSON.parse "not json" = none := by
  rfl

theorem stringify_sanity :
    stringify (Json.obj [("pages", Json.arr [Json.str "a"]), ("currentPage", Json.num 0)]) =
      "\x7b\n  \"pages\": [\n    \"a\"\n  ],\n  \"currentPage\": 0\n\x7d" := by
  rfl

theorem Fs.read_write (fs : Fs) (p c : String) : (fs.write p c).read p = some c := by
  simp [Fs.read, Fs.write, List.find?]

theorem Fs.read_mkdir (fs : Fs) (d p : String) : (fs.mkdir d).read p = fs.read p := rfl

theorem Fs.files_mkdir (fs : Fs) (d : String) : (fs.mkdir d).files = fs.files := rfl

theorem Fs.hasDir_mkdir_self (fs : Fs) (d : String) : (fs.mkdir d).hasDir d = true := by
  simp [Fs.hasDir, Fs.mkdir]

theorem Fs.hasDir_write (fs : Fs) (p c d : String) : (fs.write p c).hasDir d = fs.hasDir d := rfl

/-- Every effect emitted by `_startWatching` is a watch-handle operation. -/
theorem mem_startWatching_effects (fs : Fs) (w : WatchSys) (sess : Session) (p : String)
    (e : Effect) (he : e ∈ (startWatching fs w sess p).2.2) :
    (∃ h, e = Effect.watchClose h) ∨ ∃ d h, e = Effect.watchOpen d h := by
  unfold startWatching at he
  rcases hfw : sess.fileWatcher with _ | h <;> rw [hfw] at he <;>
    by_cases hd : fs.hasDir (pathDirname p) <;> simp [hd] at he
  · exact Or.inr ⟨_, _, he⟩
  · rcases he with he | he
    · exact Or.inl ⟨_, he⟩
    · exact Or.inr ⟨_, _, he⟩
  · exact Or.inl ⟨_, he⟩

/-- C1: a watcher event on the vault file whose re-read raw content is
string-equal to `_lastSavedStateStr` delivers no notification and leaves
the cache (indeed the whole session) unchanged; in particular the watcher
event resulting from a `saveState` finds content equal to the cache the
save just set and produces zero external-change notifications. -/
theorem c1_echo_suppression (sess : Session) (fs : Fs) (vaultFilePath c : String)
    (env : Env) (w : WatchSys) (v : Json)
    (hread : fs.read vaultFilePath = some c)
    (hcache : sess.lastSavedStateStr = some c) :
    watcherCallback sess fs vaultFilePath (pathBasename vaultFilePath) = (sess, []) ∧
    watcherCallback (saveStateHandler env fs w sess v).sess (saveStateHandler env fs w sess v).fs
        (vaultFilePathOf env) (pathBasename (vaultFilePathOf env)) =
      ((saveStateHandler env fs w sess v).sess, []) := by
  constructor
  · simp [watcherCallback, hread, hcache]
  · have hread2 : (saveStateHandler env fs w sess v).fs.read (vaultFilePathOf env) =
        some (stringify v) := by
      simp [saveStateHandler, vaultFilePathOf, Fs.read_write]
    have hcache2 : (saveStateHandler env fs w sess v).sess.lastSavedStateStr =
        some (stringify v) := rfl
    simp [watcherCallback, hread2, hcache2]

theorem c1_echo_suppression_witness :
    (⟨[("/vault/f.json", "[\"a\"]")], ["/vault"]⟩ : Fs).read "/vault/f.json" = some "[\"a\"]" ∧
    ((⟨some "[\"a\"]", none⟩ : Session), ([] : List Effect)) =
      ((⟨some "[\"a\"]", none⟩ : Session), ([] : List Effect)) ∧
    watcherCallback ⟨some "[\"a\"]", none⟩ ⟨[("/vault/f.json", "[\"a\"]")], ["/vault"]⟩
        "/vault/f.json" (pathBasename "/vault/f.json") = (⟨some "[\"a\"]", none⟩, []) := by
  refine ⟨rfl, rfl, ?_⟩
  exact (c1_echo_suppression ⟨some "[\"a\"]", none⟩ ⟨[("/vault/f.json", "[\"a\"]")], ["/vault"]⟩
    "/vault/f.json" "[\"a\"]" ⟨"/h", [], ⟨"/vault", false⟩⟩ ⟨[], 0⟩ Json.null rfl rfl).1

/-- C3 (counterexample): a watcher event whose content is invalid JSON
does change `SerializedStateCache` when that content differs from it —
the cache is reassigned before `JSON.parse` throws. -/
theorem c3_counterexample :
    (watcherCallback ⟨some "x", none⟩ ⟨[("p/f", "not json")], []⟩ "p/f" "f").1.lastSavedStateStr ≠
      (⟨some "x", none⟩ : Session).lastSavedStateStr ∧
    JSON.parse "not json" = none ∧
    (watcherCallback ⟨some "x", none⟩ ⟨[("p/f", "not json")], []⟩ "p/f" "f").2 = [] := by
  exact ⟨by decide, rfl, rfl⟩

/-- C3 (amended): a watcher event on the vault file whose current content
is invalid JSON neither crashes, nor posts any state, nor surfaces any
user-visible error; the live view receives nothing — but
`SerializedStateCache` ends up holding the raw invalid content (it is
reassigned before the parse fails whenever the content differs from it;
when the content already equals the cache nothing changes). -/
theorem c3_invalid_json_amended (sess : Session) (fs : Fs) (vaultFilePath c : String)
    (hread : fs.read vaultFilePath = some c)
    (hbad : JSON.parse c = none) :
    (watcherCallback sess fs vaultFilePath (pathBasename vaultFilePath)).2 = [] ∧
    (watcherCallback sess fs vaultFilePath (pathBasename vaultFilePath)).1.lastSavedStateStr =
      some c ∧
    (watcherCallback sess fs vaultFilePath (pathBasename vaultFilePath)).1.fileWatcher =
      sess.fileWatcher := by
  by_cases hc : sess.lastSavedStateStr = some c <;>
    simp [watcherCallback, hread, hbad, hc]

theorem c3_invalid_json_witness :
    (⟨[("p/f", "not json")], []⟩ : Fs).read "p/f" = some "not json" ∧
    JSON.parse "not json" = none ∧
    ((watcherCallback ⟨some "old", some 3⟩ ⟨[("p/f", "not json")], []⟩ "p/f"
        (pathBasename "p/f")).2 = [] ∧
      (watcherCallback ⟨some "old", some 3⟩ ⟨[("p/f", "not json")], []⟩ "p/f"
        (pathBasename "p/f")).1.lastSavedStateStr = some "not json" ∧
      (watcherCallback ⟨some "old", some 3⟩ ⟨[("p/f", "not json")], []⟩ "p/f"
        (pathBasename "p/f")).1.fileWatcher = (⟨some "old", some 3⟩ : Session).fileWatcher) := by
  exact ⟨rfl, rfl,
    c3_invalid_json_amended ⟨some "old", some 3⟩ ⟨[("p/f", "not json")], []⟩ "p/f" "not json"
      rfl rfl⟩

/-- C10: echo suppression compares raw strings, not parsed values — any
content that differs as a string from the cache is delivered parsed, and
the cache is updated to the new raw string; the hypotheses allow (and the
witness exhibits) new content that is deep-equal to the cached one. -/
theorem c10_raw_string_comparison (sess : Session) (fs : Fs) (vaultFilePath c : String) (v : Json)
    (hread : fs.read vaultFilePath = some c)
    (hok : JSON.parse c = some v)
    (hdiff : sess.lastSavedStateStr ≠ some c) :
    watcherCallback sess fs vaultFilePath (pathBasename vaultFilePath) =
      ({ sess with lastSavedStateStr := some c }, [Effect.post (Msg.loadState v)]) := by
  simp [watcherCallback, hread, hok, hdiff]

theorem c10_raw_string_witness :
    JSON.parse "[1, 2]" = JSON.parse "[1,2]" ∧
    (⟨some "[1, 2]", none⟩ : Session).lastSavedStateStr ≠ some "[1,2]" ∧
    watcherCallback ⟨some "[1, 2]", none⟩ ⟨[("p/f", "[1,2]")], []⟩ "p/f" (pathBasename "p/f") =
      (⟨some "[1,2]", none⟩, [Effect.post (Msg.loadState (Json.arr [Json.num 1, Json.num 2]))]) := by
  refine ⟨rfl, by decide, ?_⟩
  exact c10_raw_string_comparison ⟨some "[1, 2]", none⟩ ⟨[("p/f", "[1,2]")], []⟩ "p/f" "[1,2]"
    (Json.arr [Json.num 1, Json.num 2]) rfl rfl (by decide)

theorem dropThroughPlus_append (l r : List Char) (h : ('+') ∉ l) :
    dropThroughPlus (l ++ '+' :: r) = some r := by
  induction l with
  | nil => simp [dropThroughPlus]
  | cons a as ih =>
    simp only [List.cons_append, dropThroughPlus, List.append_eq]
    rw [if_neg (by intro ha; exact h (ha ▸ List.mem_cons_self a as)),
      ih (fun hm => h (List.mem_cons_of_mem a hm))]

theorem normalizeAuthority_concat (x y : String) (hx : ('+') ∉ x.data) :
    normalizeAuthority (x ++ "+" ++ y) = y := by
  unfold normalizeAuthority
  have hdata : (x ++ "+" ++ y).data = x.data ++ '+' :: y.data := by
    simp [String.data_append]
  rw [hdata, dropThroughPlus_append _ _ hx]

/-- C4 (counterexample): the code keeps the substring after the first
`+`, not the last, so a routing tag that itself contains `+` changes the
identity: authorities `a+b+y` and `c+y` share the part `y` after their
last `+` yet hash to different identities. -/
theorem c4_counterexample :
    normalizeAuthority "a+b+y" = "b+y" ∧ normalizeAuthority "c+y" = "y" ∧
    (getWorkspaceHash ⟨"/h", [⟨"s", "a+b+y", "/p"⟩], ⟨"", false⟩⟩).1 ≠
      (getWorkspaceHash ⟨"/h", [⟨"s", "c+y", "/p"⟩], ⟨"", false⟩⟩).1 := by
  exact ⟨rfl, rfl, by decide⟩

/-- C4 (amended): `deriveWorkspaceIdentity` is invariant to the routing
tag before the FIRST `+` of the authority: for any two tags `x`, `z` that
do not themselves contain `+`, the identities for authorities `x+y` and
`z+y` over the same path agree (when a tag contains `+`, the invariance
fails, as the counterexample shows). -/
theorem c4_prefix_invariance_amended (env : Env) (scheme scheme2 x z y p : String)
    (hx : ('+') ∉ x.data) (hz : ('+') ∉ z.data) :
    (getWorkspaceHash { env with workspaceFolders := [⟨scheme, x ++ "+" ++ y, p⟩] }).1 =
      (getWorkspaceHash { env with workspaceFolders := [⟨scheme2, z ++ "+" ++ y, p⟩] }).1 := by
  simp only [getWorkspaceHash]
  rw [normalizeAuthority_concat x y hx, normalizeAuthority_concat z y hz]

theorem c4_prefix_invariance_witness :
    ('+') ∉ ("a" : String).data ∧ ('+') ∉ ("c" : String).data ∧
    (getWorkspaceHash { (⟨"/h", [], ⟨"", false⟩⟩ : Env) with
        workspaceFolders := [⟨"s", "a" ++ "+" ++ "y", "/p"⟩] }).1 =
      (getWorkspaceHash { (⟨"/h", [], ⟨"", false⟩⟩ : Env) with
        workspaceFolders := [⟨"s", "c" ++ "+" ++ "y", "/p"⟩] }).1 := by
  exact ⟨by decide, by decide,
    c4_prefix_invariance_amended ⟨"/h", [], ⟨"", false⟩⟩ "s" "s" "a" "c" "y" "/p"
      (by decide) (by decide)⟩


/-- Characterization of `init` when the vault file is absent and a legacy
state is supplied: the migration branch runs, then the watcher starts. -/
theorem initHandler_absent_some (env : Env) (fs : Fs) (w : WatchSys) (sess : Session) (L : Json)
    (habs : fs.read (vaultFilePathOf env) = none) :
    ∃ fs1 mkfx, (fs1 = fs ∨ fs1 = fs.mkdir (getVaultDir env)) ∧
      (mkfx = ([] : List Effect) ∨ mkfx = [Effect.mkdir (getVaultDir env)]) ∧
      (fs1.write (vaultFilePathOf env) (stringify L)).hasDir (getVaultDir env) = true ∧
      initHandler env fs w sess (some L) =
        ⟨fs1.write (vaultFilePathOf env) (stringify L),
         (startWatching (fs1.write (vaultFilePathOf env) (stringify L)) w
           { sess with lastSavedStateStr := some (stringify L) } (vaultFilePathOf env)).1,
         (startWatching (fs1.write (vaultFilePathOf env) (stringify L)) w
           { sess with lastSavedStateStr := some (stringify L) } (vaultFilePathOf env)).2.1,
         mkfx ++ [Effect.write (vaultFilePathOf env) (stringify L),
           Effect.post (Msg.loadState L)] ++
           (startWatching (fs1.write (vaultFilePathOf env) (stringify L)) w
             { sess with lastSavedStateStr := some (stringify L) } (vaultFilePathOf env)).2.2,
         (getWorkspaceHash env).2, false⟩ := by
  simp only [vaultFilePathOf] at habs ⊢
  by_cases hd : fs.hasDir (getVaultDir env) = true
  · refine ⟨fs, [], Or.inl rfl, Or.inl rfl, by simp [Fs.hasDir_write, hd], ?_⟩
    simp [initHandler, hd, habs]
  · refine ⟨fs.mkdir (getVaultDir env), [Effect.mkdir (getVaultDir env)], Or.inr rfl, Or.inr rfl,
      by simp [Fs.hasDir_write, Fs.hasDir_mkdir_self], ?_⟩
    simp [initHandler, hd, habs, Fs.read_mkdir]

/-- Characterization of `init` when the vault file is present: the cache
takes the raw content, the parse outcome decides between a `loadState`
post and an error message, the file is not written, and the watcher
starts. -/
theorem initHandler_present (env : Env) (fs : Fs) (w : WatchSys) (sess : Session)
    (legacy : Option Json) (c : String)
    (hc : fs.read (vaultFilePathOf env) = some c) :
    ∃ fs1 mkfx, (fs1 = fs ∨ fs1 = fs.mkdir (getVaultDir env)) ∧
      (mkfx = ([] : List Effect) ∨ mkfx = [Effect.mkdir (getVaultDir env)]) ∧
      (fs.hasDir (getVaultDir env) = true → fs1 = fs ∧ mkfx = []) ∧
      initHandler env fs w sess legacy =
        ⟨fs1,
         (startWatching fs1 w { sess with lastSavedStateStr := some c } (vaultFilePathOf env)).1,
         (startWatching fs1 w { sess with lastSavedStateStr := some c } (vaultFilePathOf env)).2.1,
         mkfx ++
           (match JSON.parse c with
            | some st => [Effect.post (Msg.loadState st)]
            | none =>
              [Effect.showError "sidebar-markdown-notes: Failed to parse notes vault file."]) ++
           (startWatching fs1 w { sess with lastSavedStateStr := some c }
             (vaultFilePathOf env)).2.2,
         (getWorkspaceHash env).2, false⟩ := by
  simp only [vaultFilePathOf] at hc ⊢
  by_cases hd : fs.hasDir (getVaultDir env) = true
  · refine ⟨fs, [], Or.inl rfl, Or.inl rfl, fun _ => ⟨rfl, rfl⟩, ?_⟩
    simp [initHandler, hd, hc]
  · refine ⟨fs.mkdir (getVaultDir env), [Effect.mkdir (getVaultDir env)], Or.inr rfl, Or.inr rfl,
      fun h => absurd h hd, ?_⟩
    simp [initHandler, hd, hc, Fs.read_mkdir]

/-- `_startWatching` never touches `_lastSavedStateStr`. -/
theorem startWatching_cache (fs : Fs) (w : WatchSys) (sess : Session) (p : String) :
    (startWatching fs w sess p).2.1.lastSavedStateStr = sess.lastSavedStateStr := by
  unfold startWatching
  rcases hfw : sess.fileWatcher with _ | h <;>
    by_cases hd : fs.hasDir (pathDirname p) = true <;> simp [hfw, hd]

/-- C5: `init` with a supplied legacy state and no existing vault file
writes exactly the pretty-printed serialization of the legacy state,
posts `loadState` with that state, sets the cache to the written string,
and throws nothing; any second `init` then finds the file present, emits
no write, and leaves the filesystem unchanged. -/
theorem c5_migration_once (env : Env) (fs : Fs) (w : WatchSys) (sess : Session) (L : Json)
    (habs : fs.read (vaultFilePathOf env) = none) :
    (initHandler env fs w sess (some L)).fs.read (vaultFilePathOf env) = some (stringify L) ∧
    Effect.post (Msg.loadState L) ∈ (initHandler env fs w sess (some L)).effects ∧
    (initHandler env fs w sess (some L)).sess.lastSavedStateStr = some (stringify L) ∧
    (initHandler env fs w sess (some L)).threw = false ∧
    (∀ legacy2 p c, Effect.write p c ∉
      (initHandler env (initHandler env fs w sess (some L)).fs
        (initHandler env fs w sess (some L)).watch
        (initHandler env fs w sess (some L)).sess legacy2).effects) ∧
    (∀ legacy2,
      (initHandler env (initHandler env fs w sess (some L)).fs
        (initHandler env fs w sess (some L)).watch
        (initHandler env fs w sess (some L)).sess legacy2).fs =
      (initHandler env fs w sess (some L)).fs) := by
  obtain ⟨fs1, mkfx, hfs1, hmk, hdir, ho⟩ := initHandler_absent_some env fs w sess L habs
  rw [ho]
  have hread2 : (fs1.write (vaultFilePathOf env) (stringify L)).read (vaultFilePathOf env) =
      some (stringify L) := Fs.read_write fs1 _ _
  refine ⟨hread2, ?_, ?_, rfl, ?_, ?_⟩
  · simp
  · exact startWatching_cache _ _ _ _
  · intro legacy2 p c hmem
    obtain ⟨fs1', mkfx', _, _, hcond, ho2⟩ :=
      initHandler_present env (fs1.write (vaultFilePathOf env) (stringify L))
        (startWatching (fs1.write (vaultFilePathOf env) (stringify L)) w
          { sess with lastSavedStateStr := some (stringify L) } (vaultFilePathOf env)).1
        (startWatching (fs1.write (vaultFilePathOf env) (stringify L)) w
          { sess with lastSavedStateStr := some (stringify L) } (vaultFilePathOf env)).2.1
        legacy2 (stringify L) hread2
    obtain ⟨hfs1', hmk'⟩ := hcond hdir
    rw [ho2, hmk'] at hmem
    simp only [Out.effects, List.nil_append, List.mem_append] at hmem
    rcases hmem with hmem | hmem
    · rcases hparse : JSON.parse (stringify L) with _ | st <;> rw [hparse] at hmem <;>
        simp at hmem
    · rcases mem_startWatching_effects _ _ _ _ _ hmem with ⟨h, he⟩ | ⟨d, h, he⟩ <;>
        exact absurd he (by simp)
  · intro legacy2
    obtain ⟨fs1', mkfx', _, _, hcond, ho2⟩ :=
      initHandler_present env (fs1.write (vaultFilePathOf env) (stringify L))
        (startWatching (fs1.write (vaultFilePathOf env) (stringify L)) w
          { sess with lastSavedStateStr := some (stringify L) } (vaultFilePathOf env)).1
        (startWatching (fs1.write (vaultFilePathOf env) (stringify L)) w
          { sess with lastSavedStateStr := some (stringify L) } (vaultFilePathOf env)).2.1
        legacy2 (stringify L) hread2
    obtain ⟨hfs1', _⟩ := hcond hdir
    rw [ho2]
    exact hfs1'

theorem c5_migration_once_witness :
    (initHandler ⟨"/h", [], ⟨"/vault", false⟩⟩ ⟨[], []⟩ ⟨[], 0⟩ initialSession
        (some (Json.obj [("pages", Json.arr [Json.str "a"]), ("currentPage", Json.num 0)]))).fs.read
        (vaultFilePathOf ⟨"/h", [], ⟨"/vault", false⟩⟩) =
      some (stringify (Json.obj [("pages", Json.arr [Json.str "a"]), ("currentPage", Json.num 0)])) ∧
    Effect.post (Msg.loadState
        (Json.obj [("pages", Json.arr [Json.str "a"]), ("currentPage", Json.num 0)])) ∈
      (initHandler ⟨"/h", [], ⟨"/vault", false⟩⟩ ⟨[], []⟩ ⟨[], 0⟩ initialSession
        (some (Json.obj [("pages", Json.arr [Json.str "a"]), ("currentPage", Json.num 0)]))).effects ∧
    (initHandler ⟨"/h", [], ⟨"/vault", false⟩⟩ ⟨[], []⟩ ⟨[], 0⟩ initialSession
        (some (Json.obj [("pages", Json.arr [Json.str "a"]), ("currentPage", Json.num 0)]))).sess.lastSavedStateStr =
      some (stringify (Json.obj [("pages", Json.arr [Json.str "a"]), ("currentPage", Json.num 0)])) ∧
    (initHandler ⟨"/h", [], ⟨"/vault", false⟩⟩ ⟨[], []⟩ ⟨[], 0⟩ initialSession
        (some (Json.obj [("pages", Json.arr [Json.str "a"]), ("currentPage", Json.num 0)]))).threw = false ∧
    (∀ legacy2 p c, Effect.write p c ∉
      (initHandler ⟨"/h", [], ⟨"/vault", false⟩⟩
        (initHandler ⟨"/h", [], ⟨"/vault", false⟩⟩ ⟨[], []⟩ ⟨[], 0⟩ initialSession
          (some (Json.obj [("pages", Json.arr [Json.str "a"]), ("currentPage", Json.num 0)]))).fs
        (initHandler ⟨"/h", [], ⟨"/vault", false⟩⟩ ⟨[], []⟩ ⟨[], 0⟩ initialSession
          (some (Json.obj [("pages", Json.arr [Json.str "a"]), ("currentPage", Json.num 0)]))).watch
        (initHandler ⟨"/h", [], ⟨"/vault", false⟩⟩ ⟨[], []⟩ ⟨[], 0⟩ initialSession
          (some (Json.obj [("pages", Json.arr [Json.str "a"]), ("currentPage", Json.num 0)]))).sess
        legacy2).effects) ∧
    (∀ legacy2,
      (initHandler ⟨"/h", [], ⟨"/vault", false⟩⟩
        (initHandler ⟨"/h", [], ⟨"/vault", false⟩⟩ ⟨[], []⟩ ⟨[], 0⟩ initialSession
          (some (Json.obj [("pages", Json.arr [Json.str "a"]), ("currentPage", Json.num 0)]))).fs
        (initHandler ⟨"/h", [], ⟨"/vault", false⟩⟩ ⟨[], []⟩ ⟨[], 0⟩ initialSession
          (some (Json.obj [("pages", Json.arr [Json.str "a"]), ("currentPage", Json.num 0)]))).watch
        (initHandler ⟨"/h", [], ⟨"/vault", false⟩⟩ ⟨[], []⟩ ⟨[], 0⟩ initialSession
          (some (Json.obj [("pages", Json.arr [Json.str "a"]), ("currentPage", Json.num 0)]))).sess
        legacy2).fs =
      (initHandler ⟨"/h", [], ⟨"/vault", false⟩⟩ ⟨[], []⟩ ⟨[], 0⟩ initialSession
        (some (Json.obj [("pages", Json.arr [Json.str "a"]), ("currentPage", Json.num 0)]))).fs) := by
  exact c5_migration_once ⟨"/h", [], ⟨"/vault", false⟩⟩ ⟨[], []⟩ ⟨[], 0⟩ initialSession
    (Json.obj [("pages", Json.arr [Json.str "a"]), ("currentPage", Json.num 0)]) rfl

/-- C6 (counterexample): `init` with no legacy state and no vault file
creates nothing and delivers nothing — the handler throws out (there is
no empty-default migration in the code: `JSON.stringify(undefined)` is
`undefined` and the file write rejects it). -/
theorem c6_counterexample :
    (initHandler ⟨"/h", [], ⟨"/vault", false⟩⟩ ⟨[], ["/vault"]⟩ ⟨[], 0⟩ initialSession
        none).threw = true ∧
    (initHandler ⟨"/h", [], ⟨"/vault", false⟩⟩ ⟨[], ["/vault"]⟩ ⟨[], 0⟩ initialSession
        none).fs.read (vaultFilePathOf ⟨"/h", [], ⟨"/vault", false⟩⟩) = none ∧
    (initHandler ⟨"/h", [], ⟨"/vault", false⟩⟩ ⟨[], ["/vault"]⟩ ⟨[], 0⟩ initialSession
        none).effects = [] := by
  exact ⟨rfl, rfl, rfl⟩

/-- C6 (amended): when `init` is invoked with no legacy state and no
vault file exists, there is no empty-default fallback: serializing the
`undefined` legacy value yields no string, the write throws out of the
handler, no file is created, nothing is posted, the watcher is not
started, and the cache is left holding the `undefined` value (the only
possible effect is the directory creation that preceded the throw). -/
theorem c6_no_default_fallback (env : Env) (fs : Fs) (w : WatchSys) (sess : Session)
    (habs : fs.read (vaultFilePathOf env) = none) :
    (initHandler env fs w sess none).threw = true ∧
    (initHandler env fs w sess none).fs.files = fs.files ∧
    (initHandler env fs w sess none).sess.lastSavedStateStr = none ∧
    (initHandler env fs w sess none).watch = w ∧
    ∀ e ∈ (initHandler env fs w sess none).effects, e = Effect.mkdir (getVaultDir env) := by
  simp only [vaultFilePathOf] at habs
  by_cases hd : fs.hasDir (getVaultDir env) = true <;>
    simp [initHandler, hd, habs, Fs.read_mkdir, Fs.files_mkdir]

theorem c6_no_default_fallback_witness :
    (⟨[("other", "x")], []⟩ : Fs).read (vaultFilePathOf ⟨"/h", [], ⟨"/vault", false⟩⟩) = none ∧
    ((initHandler ⟨"/h", [], ⟨"/vault", false⟩⟩ ⟨[("other", "x")], []⟩ ⟨[], 0⟩ initialSession
        none).threw = true ∧
      (initHandler ⟨"/h", [], ⟨"/vault", false⟩⟩ ⟨[("other", "x")], []⟩ ⟨[], 0⟩ initialSession
        none).fs.files = (⟨[("other", "x")], []⟩ : Fs).files ∧
      (initHandler ⟨"/h", [], ⟨"/vault", false⟩⟩ ⟨[("other", "x")], []⟩ ⟨[], 0⟩ initialSession
        none).sess.lastSavedStateStr = none ∧
      (initHandler ⟨"/h", [], ⟨"/vault", false⟩⟩ ⟨[("other", "x")], []⟩ ⟨[], 0⟩ initialSession
        none).watch = ⟨[], 0⟩ ∧
      ∀ e ∈ (initHandler ⟨"/h", [], ⟨"/vault", false⟩⟩ ⟨[("other", "x")], []⟩ ⟨[], 0⟩
          initialSession none).effects,
        e = Effect.mkdir (getVaultDir ⟨"/h", [], ⟨"/vault", false⟩⟩)) := by
  refine ⟨?_, c6_no_default_fallback ⟨"/h", [], ⟨"/vault", false⟩⟩ ⟨[("other", "x")], []⟩
    ⟨[], 0⟩ initialSession ?_⟩
  · decide
  · decide

/-- C7: `init` on a vault file that exists but does not parse reports the
parse warning exactly once, posts no state to the presentation layer,
performs no write and no migration (the on-disk files are untouched), and
throws nothing. -/
theorem c7_parse_error_on_init (env : Env) (fs : Fs) (w : WatchSys) (sess : Session)
    (legacy : Option Json) (c : String)
    (hread : fs.read (vaultFilePathOf env) = some c)
    (hbad : JSON.parse c = none) :
    ((initHandler env fs w sess legacy).effects.filter Effect.isShowError).length = 1 ∧
    (∀ m, Effect.post m ∉ (initHandler env fs w sess legacy).effects) ∧
    (∀ p s, Effect.write p s ∉ (initHandler env fs w sess legacy).effects) ∧
    (initHandler env fs w sess legacy).fs.files = fs.files ∧
    (initHandler env fs w sess legacy).threw = false := by
  obtain ⟨fs1, mkfx, hfs1, hmk, _, ho⟩ := initHandler_present env fs w sess legacy c hread
  rw [ho]
  simp only [Out.effects, Out.fs, Out.threw, hbad]
  have hwfx : ∀ e ∈ (startWatching fs1 w { sess with lastSavedStateStr := some c }
      (vaultFilePathOf env)).2.2, Effect.isShowError e = false ∧
      (∀ m, e ≠ Effect.post m) ∧ ∀ p s, e ≠ Effect.write p s := by
    intro e he
    rcases mem_startWatching_effects _ _ _ _ _ he with ⟨h, he'⟩ | ⟨d, h, he'⟩ <;> subst he'
    · refine ⟨rfl, ?_, ?_⟩
      · intro m hm
        exact Effect.noConfusion hm
      · intro p s hm
        exact Effect.noConfusion hm
    · refine ⟨rfl, ?_, ?_⟩
      · intro m hm
        exact Effect.noConfusion hm
      · intro p s hm
        exact Effect.noConfusion hm
  refine ⟨?_, ?_, ?_, ?_, trivial⟩
  · rw [List.filter_append, List.filter_append]
    have h1 : mkfx.filter Effect.isShowError = [] := by
      rcases hmk with h | h <;> subst h <;> rfl
    have h2 : (startWatching fs1 w { sess with lastSavedStateStr := some c }
        (vaultFilePathOf env)).2.2.filter Effect.isShowError = [] := by
      rw [List.filter_eq_nil_iff]
      intro e he
      simp [(hwfx e he).1]
    rw [h1, h2]
    rfl
  · intro m hmem
    simp only [List.mem_append] at hmem
    rcases hmem with (hmem | hmem) | hmem
    · rcases hmk with h | h <;> subst h <;> simp at hmem
    · simp at hmem
    · exact (hwfx _ hmem).2.1 m rfl
  · intro p s hmem
    simp only [List.mem_append] at hmem
    rcases hmem with (hmem | hmem) | hmem
    · rcases hmk with h | h <;> subst h <;> simp at hmem
    · simp at hmem
    · exact (hwfx _ hmem).2.2 p s rfl
  · rcases hfs1 with h | h <;> subst h <;> rfl

theorem c7_parse_error_witness :
    (⟨[(vaultFilePathOf ⟨"/h", [], ⟨"/vault", false⟩⟩, "not json")], ["/vault"]⟩ : Fs).read
      (vaultFilePathOf ⟨"/h", [], ⟨"/vault", false⟩⟩) = some "not json" ∧
    JSON.parse "not json" = none ∧
    (((initHandler ⟨"/h", [], ⟨"/vault", false⟩⟩
        ⟨[(vaultFilePathOf ⟨"/h", [], ⟨"/vault", false⟩⟩, "not json")], ["/vault"]⟩
        ⟨[], 0⟩ initialSession none).effects.filter Effect.isShowError).length = 1 ∧
      (∀ m, Effect.post m ∉ (initHandler ⟨"/h", [], ⟨"/vault", false⟩⟩
        ⟨[(vaultFilePathOf ⟨"/h", [], ⟨"/vault", false⟩⟩, "not json")], ["/vault"]⟩
        ⟨[], 0⟩ initialSession none).effects) ∧
      (∀ p s, Effect.write p s ∉ (initHandler ⟨"/h", [], ⟨"/vault", false⟩⟩
        ⟨[(vaultFilePathOf ⟨"/h", [], ⟨"/vault", false⟩⟩, "not json")], ["/vault"]⟩
        ⟨[], 0⟩ initialSession none).effects) ∧
      (initHandler ⟨"/h", [], ⟨"/vault", false⟩⟩
        ⟨[(vaultFilePathOf ⟨"/h", [], ⟨"/vault", false⟩⟩, "not json")], ["/vault"]⟩
        ⟨[], 0⟩ initialSession none).fs.files =
        (⟨[(vaultFilePathOf ⟨"/h", [], ⟨"/vault", false⟩⟩, "not json")], ["/vault"]⟩ : Fs).files ∧
      (initHandler ⟨"/h", [], ⟨"/vault", false⟩⟩
        ⟨[(vaultFilePathOf ⟨"/h", [], ⟨"/vault", false⟩⟩, "not json")], ["/vault"]⟩
        ⟨[], 0⟩ initialSession none).threw = false) := by
  refine ⟨?_, rfl, c7_parse_error_on_init ⟨"/h", [], ⟨"/vault", false⟩⟩
    ⟨[(vaultFilePathOf ⟨"/h", [], ⟨"/vault", false⟩⟩, "not json")], ["/vault"]⟩
    ⟨[], 0⟩ initialSession none "not json" ?_ rfl⟩
  · simp [Fs.read, List.find?]
  · simp [Fs.read, List.find?]

/-- The watcher callback never touches `_fileWatcher`. -/
theorem watcherCallback_fileWatcher (sess : Session) (fs : Fs) (p f : String) :
    (watcherCallback sess fs p f).1.fileWatcher = sess.fileWatcher := by
  unfold watcherCallback
  by_cases hf : f = pathBasename p
  · rw [if_pos hf]
    rcases hr : fs.read p with _ | c
    · rfl
    · by_cases hc : sess.lastSavedStateStr = some c
      · simp [hc]
      · simp only [hc, if_false]
        rcases hp : JSON.parse c with _ | v <;> simp [hp, hc]
  · rw [if_neg hf]

/-- The deferred debug action never touches `_fileWatcher`. -/
theorem runDebugAction_fileWatcher (a : DebugAction) (env : Env) (fs : Fs) (sess : Session) :
    (runDebugAction a env fs sess).2.1.fileWatcher = sess.fileWatcher := by
  obtain ⟨ls, fw⟩ := sess
  rcases ls with _ | cache
  · rfl
  · unfold runDebugAction
    repeat' split
    all_goals rfl

/-- `_startWatching` preserves the watcher bookkeeping invariant. -/
theorem startWatching_inv (fs : Fs) (w : WatchSys) (sess : Session) (p : String)
    (h1 : w.openHandles = sess.fileWatcher.toList)
    (h2 : ∀ h ∈ w.openHandles, h < w.nextId) :
    (startWatching fs w sess p).1.openHandles =
      (startWatching fs w sess p).2.1.fileWatcher.toList ∧
    ∀ h ∈ (startWatching fs w sess p).1.openHandles, h < (startWatching fs w sess p).1.nextId := by
  unfold startWatching
  rcases hfw : sess.fileWatcher with _ | hh <;> rw [hfw] at h1 <;>
    by_cases hd : fs.hasDir (pathDirname p) = true <;>
    simp only [hfw, hd, if_true, if_false, Bool.not_eq_true, Option.toList] at h1 ⊢ <;>
    simp [hfw, WatchSys.close, WatchSys.openNew, h1, Nat.lt_succ_self]

/-- `init` preserves the watcher bookkeeping invariant. -/
theorem initHandler_inv (env : Env) (fs : Fs) (w : WatchSys) (sess : Session)
    (legacy : Option Json)
    (h1 : w.openHandles = sess.fileWatcher.toList)
    (h2 : ∀ h ∈ w.openHandles, h < w.nextId) :
    (initHandler env fs w sess legacy).watch.openHandles =
      (initHandler env fs w sess legacy).sess.fileWatcher.toList ∧
    ∀ h ∈ (initHandler env fs w sess legacy).watch.openHandles,
      h < (initHandler env fs w sess legacy).watch.nextId := by
  rcases hr : fs.read (vaultFilePathOf env) with _ | c
  · rcases legacy with _ | L
    · have hr2 := hr
      simp only [vaultFilePathOf] at hr2
      by_cases hd : fs.hasDir (getVaultDir env) = true <;>
        simp [initHandler, hd, hr2, Fs.read_mkdir] <;> exact ⟨h1, h2⟩
    · obtain ⟨fs1, mkfx, _, _, _, ho⟩ := initHandler_absent_some env fs w sess L hr
      rw [ho]
      exact startWatching_inv _ _ _ _ h1 h2
  · obtain ⟨fs1, mkfx, _, _, _, ho⟩ := initHandler_present env fs w sess legacy c hr
    rw [ho]
    exact startWatching_inv _ _ _ _ h1 h2

/-- Every event-loop step preserves the watcher bookkeeping invariant. -/
theorem step_inv {s t : SysState} (hst : Step s t) (h : WatcherInv s) : WatcherInv t := by
  obtain ⟨h1, h2⟩ := h
  cases hst with
  | init env legacy => exact initHandler_inv env s.fs s.watch s.sess legacy h1 h2
  | save env v => exact ⟨h1, h2⟩
  | watchEvt p f =>
    refine ⟨?_, h2⟩
    show s.watch.openHandles = (watcherCallback s.sess s.fs p f).1.fileWatcher.toList
    rw [watcherCallback_fileWatcher]
    exact h1
  | debugFire a env =>
    refine ⟨?_, h2⟩
    show s.watch.openHandles = (runDebugAction a env s.fs s.sess).2.1.fileWatcher.toList
    rw [runDebugAction_fileWatcher]
    exact h1

/-- C8: in every session state reachable from a fresh session, at most
one file watcher handle is open — starting a new watcher always closes
the prior handle first. -/
theorem c8_single_watcher (fs0 : Fs) (t : SysState)
    (hreach : Relation.ReflTransGen Step (initialState fs0) t) :
    t.watch.openHandles.length ≤ 1 := by
  have hinv : WatcherInv t := by
    induction hreach with
    | refl => exact ⟨rfl, by intro h hh; cases hh⟩
    | tail _ hstep ih => exact step_inv hstep ih
  rw [hinv.1]
  rcases t.sess.fileWatcher with _ | h <;> simp

theorem c8_single_watcher_witness :
    (outState (initHandler ⟨"/h", [], ⟨"/vault", false⟩⟩ (⟨[], []⟩ : Fs) ⟨[], 0⟩ initialSession
      (some Json.null))).watch.openHandles.length ≤ 1 := by
  exact c8_single_watcher ⟨[], []⟩ _
    (Relation.ReflTransGen.single
      (Step.init (initialState ⟨[], []⟩) ⟨"/h", [], ⟨"/vault", false⟩⟩ (some Json.null)))

/-- C9 (code behaviour at the failing input): every `saveState` emits a
single direct in-place write of the serialized state to the final vault
file path and never performs any rename — there is no temp-file-and-rename
step that could make the write atomic for concurrent readers. -/
theorem c9_save_not_atomic (env : Env) (fs : Fs) (w : WatchSys) (sess : Session) (v : Json) :
    Effect.write (vaultFilePathOf env) (stringify v) ∈ (saveStateHandler env fs w sess v).effects ∧
    ((saveStateHandler env fs w sess v).effects.filter Effect.isWrite) =
      [Effect.write (vaultFilePathOf env) (stringify v)] ∧
    ∀ a b, Effect.rename a b ∉ (saveStateHandler env fs w sess v).effects := by
  by_cases hd : fs.hasDir (getVaultDir env) = true <;>
    simp [saveStateHandler, hd, vaultFilePathOf, Effect.isWrite, Effect.isRename]

/-- Workspace environment of a remote session, used to exhibit the debug
side effect of `_getWorkspaceHash` (claim C2). -/
def c2Env : Env := ⟨"/h", [⟨"vscode-remote", "ssh-remote+host", "/w"⟩], ⟨"/vault", false⟩⟩

def c2Act : DebugAction := ⟨⟨"vscode-remote", "ssh-remote+host", "/w"⟩, "host", "host/w"⟩

def c2State : Json := Json.obj [("pages", Json.arr [Json.str "hello"]), ("currentPage", Json.num 0)]

def c2Sess : Session := ⟨some (stringify c2State), none⟩

def c2Path : String := pathJoin "/vault" ("notes_" ++ md5hex "host/w" ++ ".json")

def c2Fs : Fs := ⟨[(c2Path, stringify c2State)], ["/vault"]⟩

/-- C2 (code behaviour at the failing input): `_getWorkspaceHash`
schedules a deferred debug action, and firing that action on a session
whose cache holds a normal notes state changes the cache, rewrites the
vault file, and posts a modified state to the presentation layer — the
identity computation is not a pure query. -/
theorem c2_identity_side_effect :
    (getWorkspaceHash c2Env).2 = [c2Act] ∧
    (runDebugAction c2Act c2Env c2Fs c2Sess).2.1.lastSavedStateStr ≠ c2Sess.lastSavedStateStr ∧
    (runDebugAction c2Act c2Env c2Fs c2Sess).1.read c2Path ≠ c2Fs.read c2Path ∧
    ((runDebugAction c2Act c2Env c2Fs c2Sess).2.2.filter Effect.isPost).length = 1 ∧
    ((runDebugAction c2Act c2Env c2Fs c2Sess).2.2.filter Effect.isWrite).length = 1 := by
  exact ⟨rfl, by decide, by decide, by decide, by decide⟩
